import Mathlib

/-!
Verification development for the geometric core of citlab-python-util
(module citlab_python_util/geometry/util.py): segment intersection,
orthogonal polygon reconstruction, polygon smoothing and baseline
tolerance computation.

The Python code is shallowly embedded: machine floats are idealised as
exact rationals, Python ints as Lean integers, Python exceptions as an
explicit error type, and Python dicts as insertion-ordered association
lists.  Numpy rank computations are idealised as exact matrix rank.
-/

/-- A pixel point, a Python tuple (x, y) of ints. -/
abbrev Pt := ℤ × ℤ

/-- Python runtime exceptions that the embedded code can raise.
fuelExhausted models a loop of the source that does not terminate. -/
inductive PyErr where
  | zeroDivisionError
  | linAlgError
  | keyError
  | indexError
  | valueError
  | fuelExhausted
deriving DecidableEq, Repr

/-- Result of check_intersection: a point [x, y], the sentinel
["inf", "inf"], or Python None. -/
inductive IRes where
  | point (x y : ℚ)
  | inf
  | none
deriving DecidableEq, Repr

/-- Exact rank of the 2 x 2 matrix [[a, b], [c, d]]; models
np.linalg.matrix_rank on the matrix A of check_intersection. -/
def rank2 (a b c d : ℚ) : ℕ :=
  if a * d - b * c ≠ 0 then 2
  else if a ≠ 0 ∨ b ≠ 0 ∨ c ≠ 0 ∨ d ≠ 0 then 1
  else 0

/-- Exact rank of the 2 x 3 matrix [[a, b, e], [c, d, f]]; models
np.linalg.matrix_rank on the augmented matrix np.c_[A, b]. -/
def rank23 (a b e c d f : ℚ) : ℕ :=
  if a * d - b * c ≠ 0 ∨ a * f - e * c ≠ 0 ∨ b * f - e * d ≠ 0 then 2
  else if a ≠ 0 ∨ b ≠ 0 ∨ e ≠ 0 ∨ c ≠ 0 ∨ d ≠ 0 ∨ f ≠ 0 then 1
  else 0

/-- A line segment as passed to check_intersection: the Python list
[[x1, x2], [y1, y2]], i.e. a pair (x coordinates, y coordinates). -/
abbrev Line := (ℚ × ℚ) × (ℚ × ℚ)

/-- Embedding of check_intersection (geometry/util.py, lines 10-67).
The two nested fall-through blocks of the collinear branch are written
sequentially; a division whose divisor is zero raises
ZeroDivisionError exactly as Python does on int/float operands, and
np.linalg.inv applied to the rank-0 (zero) matrix raises LinAlgError. -/
def check_intersection (line_1 line_2 : Line) : Except PyErr IRes :=
  let x_points1 := line_1.1; let y_points1 := line_1.2
  let x_points2 := line_2.1; let y_points2 := line_2.2
  let us := (x_points1.1, y_points1.1)
  let vs := (x_points1.2 - x_points1.1, y_points1.2 - y_points1.1)
  let u := (x_points2.1, y_points2.1)
  let v := (x_points2.2 - x_points2.1, y_points2.2 - y_points2.1)
  -- A = np.array([vs, [-v[0], -v[1]]]).transpose(), b = u - us
  let a11 := vs.1; let a12 := -v.1
  let a21 := vs.2; let a22 := -v.2
  let b1 := u.1 - us.1; let b2 := u.2 - us.2
  let rank_A := rank2 a11 a12 a21 a22
  let rank_Ab := rank23 a11 a12 b1 a21 a22 b2
  -- no solution => parallel
  if rank_A ≠ rank_Ab then .ok .none
  -- infinite solutions => one line is the multiple of the other
  else if rank_A = 1 then
    -- us + s*vs = u ; s1 = (u[0]-us[0])/vs[0], s2 = (u[1]-us[1])/vs[1]
    if vs.1 = 0 then .error .zeroDivisionError
    else if vs.2 = 0 then .error .zeroDivisionError
    else
      let s1 := (u.1 - us.1) / vs.1
      let s2 := (u.2 - us.2) / vs.2
      if s1 = s2 ∧ 0 < s1 ∧ s1 < 1 then .ok .inf
      else if s1 = s2 ∧ (s1 = 0 ∨ s1 = 1) then
        .ok (.point (us.1 + s1 * vs.1) (us.2 + s1 * vs.2))
      else
        -- us + s*vs = v (the source treats the direction v as a point)
        let t1 := (v.1 - us.1) / vs.1
        let t2 := (v.2 - us.2) / vs.2
        if t1 = t2 ∧ 0 < t1 ∧ t1 < 1 then .ok .inf
        else if t1 = t2 ∧ (t1 = 0 ∨ t1 = 1) then
          .ok (.point (us.1 + t1 * vs.1) (us.2 + t1 * vs.2))
        -- otherwise there is no overlap and no intersection
        else .ok .none
  else if rank_A = 2 then
    -- [s, t] = np.linalg.inv(A).dot(b)
    let det := a11 * a22 - a12 * a21
    let s := (a22 * b1 - a12 * b2) / det
    let t := (a11 * b2 - a21 * b1) / det
    if ¬(0 ≤ s ∧ s ≤ 1 ∧ 0 ≤ t ∧ t ≤ 1) then .ok .none
    else .ok (.point (us.1 + s * vs.1) (us.2 + s * vs.2))
  -- rank_A = rank_Ab = 0: A is the zero matrix, np.linalg.inv raises
  else .error .linAlgError

/-- Modelled from the spec: the Rectangle class of
citlab_python_util/geometry/rectangle.py is not shipped under src/.
Per the spec data model it is an axis-aligned box (x, y, width, height)
with (x, y) the top-left corner, y increasing downward.  The type is
parametrised so that integer pixel rectangles and rational bounding
boxes share one definition. -/
structure Rectangle (α : Type) where
  x : α
  y : α
  width : α
  height : α
deriving DecidableEq, Repr

/-- Modelled from the spec: the four corner vertices of a rectangle
(Rectangle.get_vertices).  The order is irrelevant to every use in the
source (the corners are poured into an unordered set). -/
def Rectangle.get_vertices (r : Rectangle ℤ) : List Pt :=
  [(r.x, r.y), (r.x + r.width, r.y), (r.x, r.y + r.height),
    (r.x + r.width, r.y + r.height)]

/-- Modelled from the spec: Rectangle.contains_point with the inclusive
boundary policy stated in the spec data model: a point is contained iff
x <= px <= x + width and y <= py <= y + height. -/
def Rectangle.contains_point (r : Rectangle ℤ) (p : Pt) : Bool :=
  decide (r.x ≤ p.1 ∧ p.1 ≤ r.x + r.width ∧ r.y ≤ p.2 ∧ p.2 ≤ r.y + r.height)

/-- Modelled from the spec: the Polygon class of
citlab_python_util/geometry/polygon.py is not shipped under src/.  Per
the spec it is an ordered point sequence kept as parallel coordinate
lists; baseline coordinates are rationals (normalised float data). -/
structure Polygon where
  x_points : List ℚ
  y_points : List ℚ
deriving DecidableEq, Repr

/-- Modelled from the spec: Polygon.get_bounding_box, the axis-aligned
bounding box of the points (derived data per the spec data model). -/
def Polygon.get_bounding_box (p : Polygon) : Rectangle ℚ :=
  let xmin := p.x_points.foldr min (p.x_points.headD 0)
  let xmax := p.x_points.foldr max (p.x_points.headD 0)
  let ymin := p.y_points.foldr min (p.y_points.headD 0)
  let ymax := p.y_points.foldr max (p.y_points.headD 0)
  ⟨xmin, ymin, xmax - xmin, ymax - ymin⟩

/-- Embedding of get_dist_fast (geometry/util.py, lines 382-402):
Manhattan-style distance from a point to a bounding box. -/
def get_dist_fast (point : ℚ × ℚ) (bb : Rectangle ℚ) : ℚ :=
  let d1 : ℚ := if point.1 < bb.x then bb.x - point.1 else 0
  let d2 : ℚ := if point.1 > bb.x + bb.width then point.1 - bb.x - bb.width else 0
  let d3 : ℚ := if point.2 < bb.y then bb.y - point.2 else 0
  let d4 : ℚ := if point.2 > bb.y + bb.height then point.2 - bb.y - bb.height else 0
  d1 + d2 + d3 + d4

/-- Embedding of get_in_dist (geometry/util.py, lines 405-419). -/
def get_in_dist (p1 p2 : ℚ × ℚ) (or_vec_x or_vec_y : ℚ) : ℚ :=
  let diff_x := p1.1 - p2.1
  let diff_y := -p1.2 + p2.2
  diff_x * or_vec_x + diff_y * or_vec_y

/-- Embedding of get_off_dist (geometry/util.py, lines 422-435). -/
def get_off_dist (p1 p2 : ℚ × ℚ) (or_vec_x or_vec_y : ℚ) : ℚ :=
  let diff_x := p1.1 - p2.1
  let diff_y := -p1.2 + p2.2
  diff_x * or_vec_y - diff_y * or_vec_x

/-- Embedding of the distance accumulation for one ground-truth
baseline poly_a (geometry/util.py, lines 451-486).  The collaborator
calc_reg_line_stats (module citlab_python_util/geometry/polygon.py, not
under src/) is abstracted by the parameter orVec, which returns the
pair (sin angle, cos angle) = (or_vec_y, or_vec_x) of the regression
angle of a polygon.  The comparison poly_b != poly_a (object identity
on distinct list elements) is modelled by comparing positions. -/
def recordedDist (orVec : Polygon → ℚ × ℚ) (allPolys : List Polygon)
    (i : ℕ) (poly_a : Polygon) (tick_dist max_d : ℚ) : Except PyErr ℚ :=
  let ov := orVec poly_a
  let or_vec_y := ov.1
  let or_vec_x := ov.2
  match poly_a.x_points, poly_a.y_points with
  | [], _ => .error .indexError
  | _, [] => .error .indexError
  | xa0 :: _, ya0 :: _ =>
    let pt_a1 : ℚ × ℚ := (xa0, ya0)
    let pt_a2 : ℚ × ℚ := (poly_a.x_points.getLastD 0, poly_a.y_points.getLastD 0)
    (poly_a.x_points.zip poly_a.y_points).foldlM (fun dist p_a =>
      allPolys.enum.foldlM (fun dist jb =>
        if jb.1 = i then .ok dist
        else if get_dist_fast p_a jb.2.get_bounding_box > dist then .ok dist
        else
          match jb.2.x_points, jb.2.y_points with
          | [], _ => .error .indexError
          | _, [] => .error .indexError
          | xb0 :: _, yb0 :: _ =>
            let pt_b1 : ℚ × ℚ := (xb0, yb0)
            let pt_b2 : ℚ × ℚ :=
              (jb.2.x_points.getLastD 0, jb.2.y_points.getLastD 0)
            let in_dist1 := get_in_dist pt_a1 pt_b1 or_vec_x or_vec_y
            let in_dist2 := get_in_dist pt_a1 pt_b2 or_vec_x or_vec_y
            let in_dist3 := get_in_dist pt_a2 pt_b1 or_vec_x or_vec_y
            let in_dist4 := get_in_dist pt_a2 pt_b2 or_vec_x or_vec_y
            if (in_dist1 < 0 ∧ in_dist2 < 0 ∧ in_dist3 < 0 ∧ in_dist4 < 0) ∨
                (in_dist1 > 0 ∧ in_dist2 > 0 ∧ in_dist3 > 0 ∧ in_dist4 > 0) then
              .ok dist
            else
              .ok ((jb.2.x_points.zip jb.2.y_points).foldl (fun d p_b =>
                if |get_in_dist p_a p_b or_vec_x or_vec_y| ≤ 2 * tick_dist then
                  min d |get_off_dist p_a p_b or_vec_x or_vec_y|
                else d) dist)) dist) max_d

/-- First phase of calc_tols (geometry/util.py, lines 449-490): one
recorded distance per baseline, in order; a distance that stayed at
max_d is recorded as 0. -/
def recordedDistsAux (orVec : Polygon → ℚ × ℚ) (allPolys : List Polygon)
    (tick_dist max_d : ℚ) : ℕ → List Polygon → Except PyErr (List ℚ)
  | _, [] => .ok []
  | i, poly_a :: rest =>
    match recordedDist orVec allPolys i poly_a tick_dist max_d with
    | .error e => .error e
    | .ok dist =>
      match recordedDistsAux orVec allPolys tick_dist max_d (i + 1) rest with
      | .error e => .error e
      | .ok ds => .ok ((if dist < max_d then dist else 0) :: ds)

/-- The recorded distances of all ground-truth baselines. -/
def recordedDists (orVec : Polygon → ℚ × ℚ) (polys_truth : List Polygon)
    (tick_dist max_d : ℚ) : Except PyErr (List ℚ) :=
  recordedDistsAux orVec polys_truth tick_dist max_d 0 polys_truth

/-- Embedding of calc_tols (geometry/util.py, lines 438-509).  After
the per-baseline recorded distances, the single loop accumulating
sum_tols and num_tols over the non-zero entries is a fold over a pair,
and the in-place postprocessing loop (replace zero by the mean, clamp
to the mean, scale by rel_tol) is a per-entry map. -/
def calc_tols (orVec : Polygon → ℚ × ℚ) (polys_truth : List Polygon)
    (tick_dist max_d rel_tol : ℚ) : Except PyErr (List ℚ) :=
  match recordedDists orVec polys_truth tick_dist max_d with
  | .error e => .error e
  | .ok tols =>
    let sn := tols.foldl (fun sn tol =>
      if tol ≠ 0 then (sn.1 + tol, sn.2 + 1) else sn) ((0 : ℚ), (0 : ℕ))
    let mean_tols := if sn.2 ≠ 0 then sn.1 / (sn.2 : ℚ) else max_d
    .ok (tols.map (fun tol =>
      min (if tol = 0 then mean_tols else tol) mean_tols * rel_tol))

/-- The mean of the non-zero recorded distances, with fallback max_d
when every recorded distance is zero (the quantity the specification
calls m). -/
def meanNonzero (ds : List ℚ) (max_d : ℚ) : ℚ :=
  let nz := ds.filter (fun t => decide (t ≠ 0))
  if nz.length ≠ 0 then nz.sum / (nz.length : ℚ) else max_d

/-- Vertex orientation tags of the smoothing algorithm; the Python
code keeps them as the strings vertical, horizontal, corner_ul,
corner_ur, corner_dr, corner_dl. -/
inductive Orient where
  | vertical
  | horizontal
  | corner_ul
  | corner_ur
  | corner_dr
  | corner_dl
deriving DecidableEq, Repr

/-- The four probe directions used during vertex classification. -/
inductive Dir where
  | n
  | e
  | s
  | w
deriving DecidableEq, Repr

/-- Python tests the substring "corner" on the tag string; it occurs in
the four corner tags only. -/
def hasCorner : Orient → Bool
  | .vertical => false
  | .horizontal => false
  | _ => true

/-- Python tests the character "u" by substring containment on the tag
string; it occurs in corner_ul and corner_ur only. -/
def hasU : Orient → Bool
  | .corner_ul => true
  | .corner_ur => true
  | _ => false

/-- Python tests the character "d" by substring containment on the tag
string; it occurs in corner_dl and corner_dr only. -/
def hasD : Orient → Bool
  | .corner_dl => true
  | .corner_dr => true
  | _ => false

/-- Python tests the character "r" by substring containment on the tag
string; every tag (vertical, horizontal and all four corner_ tags)
contains the letter r, so the test is always true.  Consequently the
branch using it catches every pair of corner tags not caught by the
upper/lower test, and the subsequent gap comparison is dead code; the
embedding keeps the source structure. -/
def hasR : Orient → Bool := fun _ => true

/-- Python tests the character "l" by substring containment on the tag
string; vertical, horizontal, corner_ul and corner_dl contain the
letter l, corner_ur and corner_dr do not. -/
def hasL : Orient → Bool
  | .corner_ur => false
  | .corner_dr => false
  | _ => true

/-- Stable-descending comparison on (direction, count) pairs: models
sorted(rect_counts.items(), key=count, reverse=True), which keeps the
dict insertion order n, e, s, w among equal counts. -/
def countGE (a b : Dir × ℕ) : Prop := b.2 ≤ a.2

instance : DecidableRel countGE := fun a b => Nat.decLe b.2 a.2

/-- Comparison for sorted(corner_cluster, key=entry[1][0][1]): stable
ascending order on the y coordinate of the clustered vertex. -/
def clusterLeY (a b : ℕ × (Pt × Orient)) : Prop := a.2.1.2 ≤ b.2.1.2

instance : DecidableRel clusterLeY := fun a b => Int.decLe a.2.1.2 b.2.1.2

/-- Python pt[0][j] with the alternating coordinate index j in {0, 1}. -/
def coordAt (p : Pt) (j : ℕ) : ℤ :=
  if j = 1 then p.2 else p.1

/-- Python round(): round half to even (the float division
float(mean)/len(cluster) is idealised as exact rational division). -/
def roundHalfEven (q : ℚ) : ℤ :=
  let f := ⌊q⌋
  let r := q - (f : ℚ)
  if r < 1 / 2 then f
  else if 1 / 2 < r then f + 1
  else if f % 2 = 0 then f else f + 1

/-- Per-vertex orientation classification (geometry/util.py, lines
242-276): four probe rectangles count the contained points of the
normalized polygon (dict iteration order n, e, s, w), a stable
descending sort picks the top two directions, and the fixed mapping
yields the orientation tag. -/
def classifyVertex (poly_norm : List Pt) (or_dims : ℤ × ℤ × ℤ × ℤ)
    (pt : Pt) : Orient :=
  let width_v := or_dims.1
  let height_v := or_dims.2.1
  let width_h := or_dims.2.2.1
  let height_h := or_dims.2.2.2
  let pt_x := pt.1
  let pt_y := pt.2
  let rect_n : Rectangle ℤ := ⟨pt_x - width_v.fdiv 2, pt_y - height_v, width_v, height_v⟩
  let rect_s : Rectangle ℤ := ⟨pt_x - width_v.fdiv 2, pt_y, width_v, height_v⟩
  let rect_e : Rectangle ℤ := ⟨pt_x, pt_y - height_h.fdiv 2, width_h, height_h⟩
  let rect_w : Rectangle ℤ := ⟨pt_x - width_h, pt_y - height_h.fdiv 2, width_h, height_h⟩
  let counts : List (Dir × ℕ) :=
    [(.n, poly_norm.countP rect_n.contains_point),
      (.e, poly_norm.countP rect_e.contains_point),
      (.s, poly_norm.countP rect_s.contains_point),
      (.w, poly_norm.countP rect_w.contains_point)]
  let sorted_counts := List.insertionSort countGE counts
  let top_two := (sorted_counts.map Prod.fst).take 2
  if Dir.n ∈ top_two ∧ Dir.s ∈ top_two then .vertical
  else if Dir.e ∈ top_two ∧ Dir.w ∈ top_two then .horizontal
  else if Dir.e ∈ top_two ∧ Dir.s ∈ top_two then .corner_ul
  else if Dir.w ∈ top_two ∧ Dir.s ∈ top_two then .corner_ur
  else if Dir.w ∈ top_two ∧ Dir.n ∈ top_two then .corner_dr
  else .corner_dl

/-- The inner while loop collecting a cluster of equal corner tags
(geometry/util.py, lines 292-295); j wraps around modulo the list
length.  When every vertex carries the same corner tag the Python loop
never terminates, which the fuel models as an error. -/
def clusterFrom (ops : List (Pt × Orient)) (o : Orient) :
    ℕ → ℕ → Except PyErr (List ℕ)
  | 0, _ => .error .fuelExhausted
  | fuel + 1, j =>
    if (ops.getD j ((0, 0), Orient.vertical)).2 = o then
      match clusterFrom ops o fuel ((j + 1) % ops.length) with
      | .error e => .error e
      | .ok js => .ok (j :: js)
    else .ok []

/-- The corner-cluster collapsing pass (geometry/util.py, lines
287-310): for every index carrying a corner tag, collect the cluster of
equal tags that follows, keep the minimal-y member for upper corners
and the maximal-y member for lower corners, and relabel the rest to
vertical, mutating the list as the scan proceeds. -/
def collapseCorners (ops0 : List (Pt × Orient)) :
    Except PyErr (List (Pt × Orient)) :=
  (List.range ops0.length).foldlM (fun ops i =>
    let oi := (ops.getD i ((0, 0), Orient.vertical)).2
    if hasCorner oi then
      match clusterFrom ops oi ops.length ((i + 1) % ops.length) with
      | .error e => .error e
      | .ok js =>
        let corner_cluster : List (ℕ × (Pt × Orient)) :=
          (i, ops.getD i ((0, 0), Orient.vertical)) ::
            js.map (fun j => (j, ops.getD j ((0, 0), Orient.vertical)))
        if corner_cluster.length > 1 then
          let byY := List.insertionSort clusterLeY corner_cluster
          let cluster_to_remove := if hasU oi then byY.drop 1 else byY.dropLast
          .ok (cluster_to_remove.foldl (fun ops2 c =>
            ops2.set c.1 ((ops2.getD c.1 ((0, 0), Orient.vertical)).1, .vertical))
            ops)
        else .ok ops
    else .ok ops) ops0

/-- The smoothing body for a single polygon: the body of the for loop
of smooth_surrounding_polygon (geometry/util.py, lines 231-379).  List
indices written poly[i - 1] in Python wrap to the end for i = 0 and are
embedded as (i + n - 1) % n; the default values passed to getD are
never used because every source access is in range. -/
def smooth_single_polygon (normPoly : List Pt → ℤ → List Pt) (polygon : List Pt)
    (poly_norm_dist : ℤ) (or_dims : ℤ × ℤ × ℤ × ℤ) :
    Except PyErr (List Pt) :=
  match polygon with
  | [] => .error .indexError
  | p0 :: _ =>
    -- close the polygon if it is not closed, then normalize it
    let surrounding_polygon :=
      if polygon.getLastD p0 ≠ p0 then polygon ++ [p0] else polygon
    let poly_norm := normPoly surrounding_polygon poly_norm_dist
    -- determine orientation for every vertex of the original polygon
    let oriented_points :=
      polygon.map (fun pt => (pt, classifyVertex poly_norm or_dims pt))
    -- fix wrongly classified points between two same classified ones
    let n := oriented_points.length
    let oriented_points := (List.range n).foldl (fun ops i =>
      let prev := (ops.getD ((i + n - 1) % n) ((0, 0), Orient.vertical)).2
      let curr := ops.getD i ((0, 0), Orient.vertical)
      let next := (ops.getD ((i + 1) % n) ((0, 0), Orient.vertical)).2
      if prev ≠ curr.2 ∧ prev = next then ops.set i (curr.1, prev) else ops)
      oriented_points
    match collapseCorners oriented_points with
    | .error e => .error e
    | .ok oriented_points =>
      -- rearrange the list to start with a corner and wrap it around
      let corner_idx :=
        (oriented_points.findIdx? (fun op => hasCorner op.2)).getD 0
      let oriented_points :=
        oriented_points.drop corner_idx ++ oriented_points.take corner_idx
      let oriented_points :=
        oriented_points ++ [oriented_points.headD ((0, 0), Orient.vertical)]
      let corner_ids := (List.range oriented_points.length).filter
        (fun i => hasCorner (oriented_points.getD i ((0, 0), Orient.vertical)).2)
      match corner_ids with
      | [] => .error .indexError
      | [_] => .error .indexError
      | c0 :: c1 :: _ =>
        let op_1 := oriented_points.getD c0 ((0, 0), Orient.vertical)
        let op_2 := oriented_points.getD c1 ((0, 0), Orient.vertical)
        let o_1 := op_1.2
        let o_2 := op_2.2
        -- decide whether the first edge is horizontal
        let is_horizontal :=
          if (hasU o_1 ∧ hasU o_2) ∨ (hasD o_1 ∧ hasD o_2) then true
          else if (hasR o_1 ∧ hasR o_2) ∨ (hasL o_1 ∧ hasL o_2) then false
          else if |op_1.1.1 - op_2.1.1| < |op_1.1.2 - op_2.1.2| then false
          else true
        -- j is 1 for a horizontal edge (y coordinate), else 0 (x)
        let j0 : ℕ := if is_horizontal then 1 else 0
        let se := (corner_ids.zip corner_ids.tail).foldl (fun aj ci =>
          let cluster := (oriented_points.drop ci.1).take (ci.2 + 1 - ci.1)
          if cluster.length > 4 then
            let m := cluster.foldl (fun m pt => m + coordAt pt.1 aj.2) (0 : ℤ)
            (aj.1 ++ [roundHalfEven ((m : ℚ) / (cluster.length : ℚ))],
              1 - aj.2)
          else
            cluster.dropLast.foldl (fun aj2 pt =>
              (aj2.1 ++ [coordAt pt.1 aj2.2], 1 - aj2.2)) aj)
          (([] : List ℤ), j0)
        let smoothed_edges := se.1
        -- build the polygon from the alternating ray coordinates
        let m := smoothed_edges.length
        let res := ((List.range m).foldl (fun ah i =>
          if ah.2 then
            (ah.1 ++ [(smoothed_edges.getD ((i + 1) % m) 0,
              smoothed_edges.getD i 0)], !ah.2)
          else
            (ah.1 ++ [(smoothed_edges.getD i 0,
              smoothed_edges.getD ((i + 1) % m) 0)], !ah.2))
          (([] : List Pt), is_horizontal)).1
        .ok res

/-- Embedding of smooth_surrounding_polygon (geometry/util.py, lines
198-379).  The body of the for loop over the input polygons ends in an
unconditional return, so only the head of the list is ever processed;
an empty input list falls off the end of the function, returning the
implicit Python None, modelled as Option.none.  The collaborator
norm_poly_dists (citlab_python_util/geometry/polygon.py, not under
src/) is abstracted by the parameter normPoly, modelled from the spec
as a black-box resampler of the closed polygon. -/
def smooth_surrounding_polygon (normPoly : List Pt → ℤ → List Pt)
    (polygons : List (List Pt)) (poly_norm_dist : ℤ)
    (or_dims : ℤ × ℤ × ℤ × ℤ) : Except PyErr (Option (List Pt)) :=
  match polygons with
  | [] => .ok Option.none
  | polygon :: _ =>
    (smooth_single_polygon normPoly polygon poly_norm_dist or_dims).map some

/-- Removal of the first occurrence of an element, Python set.remove
on the list model of a set. -/
def setErase : List Pt → Pt → List Pt
  | [], _ => []
  | q :: rest, p => if q = p then rest else q :: setErase rest p

/-- One toggle step of the odd-parity vertex filter of ortho_connect:
Python set toggling (remove if present, add if absent).  The set is
modelled as a duplicate-free list; the iteration order of a Python set
is unspecified and nothing downstream depends on it, because the list
is only measured and sorted. -/
def toggle (points : List Pt) (pt : Pt) : List Pt :=
  if pt ∈ points then setErase points pt else points ++ [pt]

/-- The boundary-vertex set of ortho_connect (geometry/util.py, lines
83-90): every rectangle corner is toggled in turn, so a corner shared
by an even number of rectangles is dropped. -/
def orthoPoints (rectangles : List (Rectangle ℤ)) : List Pt :=
  rectangles.foldl (fun points rect =>
    rect.get_vertices.foldl toggle points) []

/-- The order realised by Python sorted(points) on coordinate tuples:
lexicographic on (x, then y).  Python sorted is a stable sort and the
output of a stable sort is unique, so insertion sort with this
non-strict relation is an exact model. -/
def leXY (p q : Pt) : Prop := p.1 < q.1 ∨ (p.1 = q.1 ∧ p.2 ≤ q.2)

instance : DecidableRel leXY := fun p q =>
  inferInstanceAs (Decidable (p.1 < q.1 ∨ (p.1 = q.1 ∧ p.2 ≤ q.2)))

instance : IsTotal Pt leXY := ⟨fun p q => by unfold leXY; omega⟩

instance : IsTrans Pt leXY := ⟨fun p q r h1 h2 => by
  unfold leXY at h1 h2 ⊢; omega⟩

instance : IsAntisymm Pt leXY := ⟨fun p q h1 h2 => by
  unfold leXY at h1 h2
  have hx : p.1 = q.1 ∧ p.2 = q.2 := by omega
  exact Prod.ext hx.1 hx.2⟩

/-- The order of sorted(points, key=cmp_to_key(y_then_x)) in
ortho_connect: lexicographic on (y, then x), again as the non-strict
relation of the unique stable sort. -/
def leYX (p q : Pt) : Prop := p.2 < q.2 ∨ (p.2 = q.2 ∧ p.1 ≤ q.1)

instance : DecidableRel leYX := fun p q =>
  inferInstanceAs (Decidable (p.2 < q.2 ∨ (p.2 = q.2 ∧ p.1 ≤ q.1)))

instance : IsTotal Pt leYX := ⟨fun p q => by unfold leYX; omega⟩

instance : IsTrans Pt leYX := ⟨fun p q r h1 h2 => by
  unfold leYX at h1 h2 ⊢; omega⟩

instance : IsAntisymm Pt leYX := ⟨fun p q h1 h2 => by
  unfold leYX at h1 h2
  have hx : p.1 = q.1 ∧ p.2 = q.2 := by omega
  exact Prod.ext hx.1 hx.2⟩

/-- The row-pairing loops of ortho_connect (geometry/util.py, lines
106-122).  The outer loop resets curr_y to the y coordinate of the
current vertex whenever the inner test fails, after which the inner
test succeeds again, so the test never prevents a pairing: vertices 2i
and 2i+1 of the sorted list are paired unconditionally, and an odd
vertex count raises IndexError at sort_y[i + 1].  The identical
degenerate loop shape is reused for columns on the x-sorted list.
Each pair (a, b) stands for the two dict assignments edges[a] = b and
edges[b] = a, in that insertion order. -/
def pairAdj : List Pt → Except PyErr (List (Pt × Pt))
  | [] => .ok []
  | [_] => .error .indexError
  | a :: b :: rest =>
    match pairAdj rest with
    | .error e => .error e
    | .ok prs => .ok ((a, b) :: (b, a) :: prs)

/-- A Python dict with insertion order: an association list whose keys
are unique. -/
abbrev PyDict (α β : Type) := List (α × β)

/-- Python dict assignment d[k] = v: overwrite in place when the key is
present, otherwise append at the end. -/
def dinsert {α β : Type} [DecidableEq α] (k : α) (v : β) :
    PyDict α β → PyDict α β
  | [] => [(k, v)]
  | (k0, v0) :: rest =>
    if k0 = k then (k0, v) :: rest else (k0, v0) :: dinsert k v rest

/-- Python dict.pop(k): the stored value and the dict without the key;
KeyError when the key is absent. -/
def dpop {α β : Type} [DecidableEq α] (k : α) :
    PyDict α β → Except PyErr (β × PyDict α β)
  | [] => .error .keyError
  | (k0, v0) :: rest =>
    if k0 = k then .ok (v0, rest)
    else
      match dpop k rest with
      | .error e => .error e
      | .ok (v, d) => .ok (v, (k0, v0) :: d)

/-- The guarded pop of the cleanup loop (if vertex in edges:
edges.pop(vertex)): remove the key when present, keep the dict
unchanged otherwise. -/
def dremove {α β : Type} [DecidableEq α] (k : α) : PyDict α β → PyDict α β
  | [] => []
  | (k0, v0) :: rest => if k0 = k then rest else (k0, v0) :: dremove k rest

/-- Python dict.popitem(): the last inserted entry together with the
rest of the dict. -/
def popLast {α : Type} : List α → Option (α × List α)
  | [] => Option.none
  | [a] => some (a, [])
  | a :: b :: rest =>
    match popLast (b :: rest) with
    | Option.none => Option.none
    | some (x, r) => some (x, a :: r)

/-- The inner traversal loop of ortho_connect (geometry/util.py, lines
129-140): starting from the popped vertex with marker 0, alternately
pop the successor from the vertical (marker 0) or horizontal (marker 1)
edge dict, append it with the toggled marker, and stop when the
appended pair equals the first one, popping it off again.  rpoly holds
the polygon in reverse, so that polygon[-1] is its head.  The fuel is
sufficient because every step removes one edge-dict entry. -/
def buildPoly (first : Pt × ℕ) :
    List Unit → PyDict Pt Pt → PyDict Pt Pt → List (Pt × ℕ) →
      Except PyErr (List (Pt × ℕ) × PyDict Pt Pt × PyDict Pt Pt)
  | [], _, _, _ => .error .fuelExhausted
  | _ :: fuel, eh, ev, rpoly =>
    match rpoly with
    | [] => .error .indexError
    | (curr, e) :: _ =>
      if e = 0 then
        match dpop curr ev with
        | .error er => .error er
        | .ok (nxt, ev2) =>
          if (nxt, 1) = first then .ok (rpoly, eh, ev2)
          else buildPoly first fuel eh ev2 ((nxt, 1) :: rpoly)
      else
        match dpop curr eh with
        | .error er => .error er
        | .ok (nxt, eh2) =>
          if (nxt, 0) = first then .ok (rpoly, eh2, ev)
          else buildPoly first fuel eh2 ev ((nxt, 0) :: rpoly)

/-- The polygon collection loop of ortho_connect (geometry/util.py,
lines 125-149): while the horizontal edge dict is non-empty, popitem
its last entry, walk a closed polygon from it, strip the markers, and
pop every vertex of the polygon from both edge dicts.  Each iteration
removes at least the popped entry from edges_h, so the fuel length
suffices. -/
def collectPolys :
    List Unit → PyDict Pt Pt → PyDict Pt Pt → List (List Pt) →
      Except PyErr (List (List Pt))
  | fuel, eh, ev, acc =>
    match eh with
    | [] => .ok acc
    | _ :: _ =>
      match fuel with
      | [] => .error .fuelExhausted
      | _ :: fuel =>
        match popLast eh with
        | Option.none => .error .keyError
        | some ((k, _), eh1) =>
          match buildPoly (k, 0)
              (eh1.map (fun _ => ()) ++ ev.map (fun _ => ()) ++ [()])
              eh1 ev [(k, 0)] with
          | .error e => .error e
          | .ok (rpoly, eh2, ev2) =>
            let poly := rpoly.reverse.map Prod.fst
            let cleaned := poly.foldl
              (fun d vx => (dremove vx d.1, dremove vx d.2)) (eh2, ev2)
            collectPolys fuel cleaned.1 cleaned.2 (acc ++ [poly])

/-- Embedding of point_in_poly (geometry/util.py, lines 151-170), the
even-odd ray casting containment test.  Iteration i pairs poly[i] with
poly[i - 1], where the Python index -1 wraps to the last element; this
is realised by zipping the polygon with its rotation by one.  The
crossing comparison divides in float arithmetic, idealised as exact
rationals, and the Python test (a > y) is not (b > y) on two bools is
the negated equivalence of the comparisons. -/
def point_in_poly (poly : List Pt) (point : Pt) : Bool :=
  let prevs : List Pt :=
    match poly with
    | [] => []
    | p :: ps => poly.getLastD p :: (p :: ps).dropLast
  (poly.zip prevs).foldl (fun is_inside pij =>
    let pi := pij.1
    let pj := pij.2
    if ¬((pi.2 > point.2) ↔ (pj.2 > point.2)) then
      if (point.1 : ℚ) <
          ((pj.1 : ℚ) - (pi.1 : ℚ)) * ((point.2 : ℚ) - (pi.2 : ℚ)) /
            ((pj.2 : ℚ) - (pi.2 : ℚ)) + (pi.1 : ℚ) then
        !is_inside
      else is_inside
    else is_inside) false

/-- Embedding of point_in_polys (geometry/util.py, lines 172-182): the
early-returning loop is the any combinator. -/
def point_in_polys (polys : List (List Pt)) (point : Pt) : Bool :=
  polys.any (fun poly => point_in_poly poly point)

/-- Removal of the first occurrence of an element from a list. -/
def pyListRemove {α : Type} [DecidableEq α] (a : α) : List α → List α
  | [] => []
  | b :: l => if b = a then l else b :: pyListRemove a l

/-- Python list.remove: drop the first element equal to the argument;
ValueError when it is absent. -/
def pyRemove {α : Type} [DecidableEq α] (a : α) (l : List α) :
    Except PyErr (List α) :=
  if a ∈ l then .ok (pyListRemove a l) else .error .valueError

/-- The containment filter of ortho_connect (geometry/util.py, lines
184-195): starting from a copy of all polygons, every polygon whose
first vertex lies inside one of the other polygons is removed. -/
def removeNested (all_polygons : List (List Pt)) :
    Except PyErr (List (List Pt)) :=
  if all_polygons.length > 1 then
    all_polygons.foldlM (fun final_polygons poly =>
      match pyRemove poly all_polygons with
      | .error e => .error e
      | .ok tmp_polys =>
        match poly with
        | [] => .error .indexError
        | p0 :: _ =>
          if point_in_polys tmp_polys p0 then pyRemove poly final_polygons
          else .ok final_polygons) all_polygons
  else .ok all_polygons

/-- Embedding of ortho_connect (geometry/util.py, lines 70-195): odd
parity corner filter, the two sorts, row and column edge pairing, the
closed polygon traversal, and removal of nested polygons.  The type
assertions of lines 78-79 hold by typing in the embedding. -/
def ortho_connect (rectangles : List (Rectangle ℤ)) :
    Except PyErr (List (List Pt)) :=
  let points := orthoPoints rectangles
  let sort_x := List.insertionSort leXY points
  let sort_y := List.insertionSort leYX points
  match pairAdj sort_y with
  | .error e => .error e
  | .ok hPairs =>
    match pairAdj sort_x with
    | .error e => .error e
    | .ok vPairs =>
      let edges_h := hPairs.foldl (fun d ab => dinsert ab.1 ab.2 d) []
      let edges_v := vPairs.foldl (fun d ab => dinsert ab.1 ab.2 d) []
      match collectPolys (edges_h.map (fun _ => ()) ++ [()])
          edges_h edges_v [] with
      | .error e => .error e
      | .ok all_polygons => removeNested all_polygons

/-! ## Theorems -/

/-- A fold in the Except monad whose step always returns its
accumulator unchanged returns the initial accumulator. -/
theorem except_foldlM_const {α β : Type} (f : β → α → Except PyErr β)
    (hf : ∀ b a, f b a = .ok b) : ∀ (l : List α) (b : β), l.foldlM f b = .ok b
  | [], _ => rfl
  | a :: l, b => by
    show f b a >>= (fun b' => l.foldlM f b') = .ok b
    rw [hf]
    show l.foldlM f b = .ok b
    exact except_foldlM_const f hf l b

/-- C1: the collinear branch of check_intersection divides by the
components of the first direction vector before any guard, so a pair of
collinear vertical segments (direction (0, 2)) raises ZeroDivisionError
instead of being classified by the rank checks. The input is
line_1 = [[0, 0], [0, 2]], line_2 = [[0, 0], [1, 3]], two overlapping
vertical segments on the y axis. -/
theorem check_intersection_collinear_axis_aligned_zero_division :
    check_intersection ((0, 0), (0, 2)) ((0, 0), (1, 3)) =
      .error .zeroDivisionError := by
  norm_num [check_intersection, rank2, rank23]

/-- C6: for the collinear pair line_1 = [[0, 10], [0, 10]] (segment from
(0, 0) to (10, 10)) and line_2 = [[12, 6], [12, 6]] (segment from
(12, 12) to (6, 6)) the second endpoint (6, 6) of the second segment
projects to parameter 3/5, strictly between 0 and 1, so by the claim the
sentinel should be returned; the code instead projects the direction
vector v = (-6, -6) as if it were a point and returns None. -/
theorem check_intersection_collinear_partial_overlap_none :
    check_intersection ((0, 10), (0, 10)) ((12, 6), (12, 6)) = .ok .none := by
  norm_num [check_intersection, rank2, rank23]

/-- With a single baseline the inner loop of calc_tols skips its only
candidate (the baseline itself), so the recorded distance stays at
max_d. -/
theorem recordedDist_single (orVec : Polygon → ℚ × ℚ) (pa : Polygon)
    (tick max_d : ℚ) (x0 y0 : ℚ) (xs ys : List ℚ)
    (hx : pa.x_points = x0 :: xs) (hy : pa.y_points = y0 :: ys) :
    recordedDist orVec [pa] 0 pa tick max_d = .ok max_d := by
  unfold recordedDist
  rw [hx, hy]
  refine except_foldlM_const _ (fun dist p_a => ?_) _ _
  have henum : ([pa] : List Polygon).enum = [(0, pa)] := rfl
  rw [henum, List.foldlM_cons, if_pos rfl]
  rfl

/-- C3: for a one-element polys_truth list (whose baseline has at least
one point) calc_tols records distance 0, falls back to the mean
max_d, clamps and scales, returning the single tolerance
rel_tol * max_d. -/
theorem calc_tols_single_baseline (orVec : Polygon → ℚ × ℚ) (pa : Polygon)
    (tick max_d rel_tol : ℚ) (hx : pa.x_points ≠ []) (hy : pa.y_points ≠ []) :
    calc_tols orVec [pa] tick max_d rel_tol = .ok [rel_tol * max_d] := by
  obtain ⟨x0, xs, hx0⟩ : ∃ x0 xs, pa.x_points = x0 :: xs := by
    cases h : pa.x_points with
    | nil => exact absurd h hx
    | cons a l => exact ⟨a, l, rfl⟩
  obtain ⟨y0, ys, hy0⟩ : ∃ y0 ys, pa.y_points = y0 :: ys := by
    cases h : pa.y_points with
    | nil => exact absurd h hy
    | cons a l => exact ⟨a, l, rfl⟩
  unfold calc_tols recordedDists recordedDistsAux
  rw [recordedDist_single orVec pa tick max_d x0 y0 xs ys hx0 hy0]
  simp only [recordedDistsAux, lt_irrefl, if_false, List.foldl_cons, List.foldl_nil,
    ne_eq, not_true_eq_false, if_pos, min_self]
  norm_num [mul_comm]

/-- C3 witness at a concrete single baseline. -/
theorem calc_tols_single_baseline_witness :
    (Polygon.mk [0] [0]).x_points ≠ [] ∧ (Polygon.mk [0] [0]).y_points ≠ [] ∧
      calc_tols (fun _ => ((0 : ℚ), 1)) [Polygon.mk [0] [0]] 5 250 (1 / 4) =
        .ok [(1 / 4 : ℚ) * 250] :=
  ⟨by simp, by simp,
    calc_tols_single_baseline (fun _ => ((0 : ℚ), 1)) (Polygon.mk [0] [0])
      5 250 (1 / 4) (by simp) (by simp)⟩

/-- The first phase of calc_tols records exactly one distance per
baseline, in order. -/
theorem recordedDistsAux_length (orVec : Polygon → ℚ × ℚ)
    (allPolys : List Polygon) (tick max_d : ℚ) :
    ∀ (ps : List Polygon) (i : ℕ) (ds : List ℚ),
      recordedDistsAux orVec allPolys tick max_d i ps = .ok ds →
        ds.length = ps.length := by
  intro ps
  induction ps with
  | nil =>
    intro i ds h
    unfold recordedDistsAux at h
    cases h
    rfl
  | cons pa rest ih =>
    intro i ds h
    unfold recordedDistsAux at h
    cases hrd : recordedDist orVec allPolys i pa tick max_d with
    | error e => rw [hrd] at h; cases h
    | ok dist =>
      rw [hrd] at h
      cases haux : recordedDistsAux orVec allPolys tick max_d (i + 1) rest with
      | error e => rw [haux] at h; cases h
      | ok ds0 =>
        rw [haux] at h
        cases h
        simp [ih (i + 1) ds0 haux]

/-- The single accumulation loop of calc_tols over the recorded
distances computes the sum and the count of the non-zero entries. -/
theorem calc_tols_sum_count (ds : List ℚ) :
    ∀ (s : ℚ) (n : ℕ),
      ds.foldl (fun sn tol => if tol ≠ 0 then (sn.1 + tol, sn.2 + 1) else sn)
          ((s, n) : ℚ × ℕ) =
        (s + (ds.filter (fun t => decide (t ≠ 0))).sum,
          n + (ds.filter (fun t => decide (t ≠ 0))).length) := by
  induction ds with
  | nil => intro s n; simp
  | cons a l ih =>
    intro s n
    by_cases ha : a = 0
    · simp only [List.foldl_cons, ha, ne_eq, not_true_eq_false, if_false,
        List.filter_cons]
      rw [ih]
      simp [ha]
    · simp only [List.foldl_cons, ne_eq, ha, not_false_eq_true, if_true,
        List.filter_cons]
      rw [ih]
      simp only [ne_eq, ha, not_false_eq_true, decide_True, if_true,
        List.sum_cons, List.length_cons, Prod.mk.injEq]
      constructor
      · ring
      · omega

/-- C8: calc_tols returns one tolerance per baseline in order, and each
output entry is rel_tol * min(d, m) where d is the recorded distance if
non-zero, else m, and m is the mean of the non-zero recorded distances
(max_d when all recorded distances are zero). -/
theorem calc_tols_postprocessing_pipeline (orVec : Polygon → ℚ × ℚ)
    (polys : List Polygon) (tick max_d rel_tol : ℚ) (ds : List ℚ)
    (h : recordedDists orVec polys tick max_d = .ok ds) :
    ds.length = polys.length ∧
      calc_tols orVec polys tick max_d rel_tol =
        .ok (ds.map (fun d =>
          rel_tol * min (if d = 0 then meanNonzero ds max_d else d)
            (meanNonzero ds max_d))) := by
  constructor
  · exact recordedDistsAux_length orVec polys tick max_d polys 0 ds h
  · unfold calc_tols
    rw [h]
    dsimp only
    rw [calc_tols_sum_count ds 0 0]
    dsimp only
    simp only [zero_add]
    unfold meanNonzero
    dsimp only
    congr 1
    apply List.map_congr_left
    intro d _
    rw [mul_comm]

/-- C8 witness at a concrete one-baseline corpus. -/
theorem calc_tols_postprocessing_pipeline_witness :
    recordedDists (fun _ => ((0 : ℚ), 1)) [Polygon.mk [0] [0]] 5 250 = .ok [0] ∧
      ([(0 : ℚ)].length = [Polygon.mk [0] [0]].length ∧
        calc_tols (fun _ => ((0 : ℚ), 1)) [Polygon.mk [0] [0]] 5 250 (1 / 4) =
          .ok ([(0 : ℚ)].map (fun d =>
            (1 / 4 : ℚ) * min (if d = 0 then meanNonzero [0] 250 else d)
              (meanNonzero [0] 250)))) := by
  have h : recordedDists (fun _ => ((0 : ℚ), 1)) [Polygon.mk [0] [0]] 5 250 =
      .ok [0] := by
    have hd : recordedDist (fun _ => ((0 : ℚ), 1)) [Polygon.mk [0] [0]] 0
        (Polygon.mk [0] [0]) 5 250 = .ok 250 :=
      recordedDist_single _ _ _ _ 0 0 [] [] rfl rfl
    unfold recordedDists recordedDistsAux
    rw [hd]
    norm_num [recordedDistsAux]
  exact ⟨h, calc_tols_postprocessing_pipeline (fun _ => ((0 : ℚ), 1))
    [Polygon.mk [0] [0]] 5 250 (1 / 4) [0] h⟩

/-- C2: smooth_surrounding_polygon processes only the head of a
non-empty polygon list (the loop body returns during its first
iteration), so the result equals the smoothed first polygon and is
independent of every polygon after the first, for every normalization
collaborator and parameter choice. -/
theorem smooth_surrounding_polygon_first_polygon_only
    (normPoly : List Pt → ℤ → List Pt) (p : List Pt)
    (rest rest2 : List (List Pt)) (d : ℤ) (dims : ℤ × ℤ × ℤ × ℤ) :
    smooth_surrounding_polygon normPoly (p :: rest) d dims =
        (smooth_single_polygon normPoly p d dims).map some ∧
      smooth_surrounding_polygon normPoly (p :: rest) d dims =
        smooth_surrounding_polygon normPoly (p :: rest2) d dims :=
  ⟨rfl, rfl⟩

/-- C10: on the empty input list the loop body of
smooth_surrounding_polygon never executes and the function falls off
its end, returning Python None: not an empty list and not an error. -/
theorem smooth_surrounding_polygon_empty_input
    (normPoly : List Pt → ℤ → List Pt) (d : ℤ) (dims : ℤ × ℤ × ℤ × ℤ) :
    smooth_surrounding_polygon normPoly [] d dims = .ok Option.none ∧
      (∀ e, smooth_surrounding_polygon normPoly [] d dims ≠ .error e) ∧
      (∀ l, smooth_surrounding_polygon normPoly [] d dims ≠ .ok (some l)) := by
  refine ⟨rfl, ?_, ?_⟩ <;> intro x h <;>
    simp [smooth_surrounding_polygon] at h

/-- A list with a member is a permutation of that member consed onto
the erased list. -/
theorem setErase_perm (p : Pt) :
    ∀ (s : List Pt), p ∈ s → s.Perm (p :: setErase s p)
  | q :: rest, hm => by
    by_cases hq : q = p
    · subst hq
      simp [setErase]
    · have hm2 : p ∈ rest := by
        cases hm with
        | head => exact absurd rfl hq
        | tail _ h => exact h
      unfold setErase
      rw [if_neg hq]
      exact ((setErase_perm p rest hm2).cons q).trans (List.Perm.swap p q _)

/-- Toggling preserves the set invariant of the point list. -/
theorem toggle_nodup (points : List Pt) (pt : Pt) (h : points.Nodup) :
    (toggle points pt).Nodup := by
  unfold toggle
  by_cases hm : pt ∈ points
  · simp only [hm, if_true]
    exact (List.Nodup.of_cons ((setErase_perm pt points hm).nodup h))
  · simp only [hm, if_false]
    simp [List.nodup_append, h, hm]

/-- One toggle changes the number of points satisfying a predicate by
exactly one when the toggled point satisfies it, preserving parity
bookkeeping. -/
theorem countP_toggle (q : Pt → Bool) (points : List Pt) (pt : Pt)
    (h : points.Nodup) :
    ((toggle points pt).countP q) % 2 =
      (points.countP q + (if q pt then 1 else 0)) % 2 := by
  unfold toggle
  by_cases hm : pt ∈ points
  · simp only [hm, if_true]
    have hc := (setErase_perm pt points hm).countP_eq q
    rw [List.countP_cons] at hc
    by_cases hq : q pt
    · simp only [hq, if_true] at hc ⊢
      omega
    · simp only [hq, if_false] at hc ⊢
      omega
  · simp only [hm, if_false, List.countP_append]
    by_cases hq : q pt <;> simp [hq, List.countP_cons]

/-- Folding toggles over a vertex list keeps the set invariant. -/
theorem toggle_fold_nodup :
    ∀ (l : List Pt) (s : List Pt), s.Nodup → (l.foldl toggle s).Nodup
  | [], s, h => h
  | pt :: l, s, h => toggle_fold_nodup l (toggle s pt) (toggle_nodup s pt h)

/-- Folding toggles over a vertex list adds the number of satisfying
toggled vertices, modulo 2. -/
theorem toggle_fold_countP (q : Pt → Bool) :
    ∀ (l : List Pt) (s : List Pt), s.Nodup →
      ((l.foldl toggle s).countP q) % 2 = (s.countP q + l.countP q) % 2
  | [], s, _ => by simp
  | pt :: l, s, h => by
    rw [List.foldl_cons,
      toggle_fold_countP q l (toggle s pt) (toggle_nodup s pt h),
      List.countP_cons]
    have := countP_toggle q s pt h
    omega

/-- The rectangle fold of orthoPoints keeps the set invariant. -/
theorem ortho_fold_nodup :
    ∀ (rects : List (Rectangle ℤ)) (s : List Pt), s.Nodup →
      (rects.foldl (fun pts r => r.get_vertices.foldl toggle pts) s).Nodup
  | [], s, h => h
  | r :: rects, s, h =>
    ortho_fold_nodup rects _ (toggle_fold_nodup r.get_vertices s h)

/-- The rectangle fold of orthoPoints accumulates, modulo 2, the
per-rectangle counts of corners satisfying a predicate. -/
theorem ortho_fold_countP (q : Pt → Bool) :
    ∀ (rects : List (Rectangle ℤ)) (s : List Pt), s.Nodup →
      ((rects.foldl (fun pts r => r.get_vertices.foldl toggle pts) s).countP q)
          % 2 =
        (s.countP q + (rects.map (fun r => r.get_vertices.countP q)).sum) % 2
  | [], s, _ => by simp
  | r :: rects, s, h => by
    rw [List.foldl_cons,
      ortho_fold_countP q rects _ (toggle_fold_nodup r.get_vertices s h),
      List.map_cons, List.sum_cons]
    have := toggle_fold_countP q r.get_vertices s h
    omega

/-- A single rectangle contributes an even number of corners to every
row: the two top corners lie in row y iff r.y = y and the two bottom
corners iff r.y + r.height = y. -/
theorem vertices_countP_row_even (r : Rectangle ℤ) (y : ℤ) :
    (r.get_vertices.countP (fun p => decide (p.2 = y))) % 2 = 0 := by
  unfold Rectangle.get_vertices
  simp only [List.countP_cons, List.countP_nil]
  split_ifs <;> omega

/-- A single rectangle contributes an even number of corners to every
column. -/
theorem vertices_countP_col_even (r : Rectangle ℤ) (x : ℤ) :
    (r.get_vertices.countP (fun p => decide (p.1 = x))) % 2 = 0 := by
  unfold Rectangle.get_vertices
  simp only [List.countP_cons, List.countP_nil]
  split_ifs <;> omega

/-- The boundary-vertex set is duplicate free. -/
theorem orthoPoints_nodup (rects : List (Rectangle ℤ)) :
    (orthoPoints rects).Nodup :=
  ortho_fold_nodup rects [] List.nodup_nil

/-- The boundary-vertex set meets every row and every column in an even
number of vertices. -/
theorem orthoPoints_parity (rects : List (Rectangle ℤ)) (y x : ℤ) :
    ((orthoPoints rects).countP (fun p => decide (p.2 = y))) % 2 = 0 ∧
      ((orthoPoints rects).countP (fun p => decide (p.1 = x))) % 2 = 0 := by
  constructor
  · rw [show orthoPoints rects =
      rects.foldl (fun pts r => r.get_vertices.foldl toggle pts) [] from rfl,
      ortho_fold_countP _ rects [] List.nodup_nil]
    have hsum : ∀ rs : List (Rectangle ℤ),
        ((rs.map (fun r =>
          r.get_vertices.countP (fun p => decide (p.2 = y)))).sum) % 2 = 0 := by
      intro rs
      induction rs with
      | nil => simp
      | cons r rs ih =>
        rw [List.map_cons, List.sum_cons]
        have := vertices_countP_row_even r y
        omega
    have := hsum rects
    simp only [List.countP_nil, Nat.zero_add]
    omega
  · rw [show orthoPoints rects =
      rects.foldl (fun pts r => r.get_vertices.foldl toggle pts) [] from rfl,
      ortho_fold_countP _ rects [] List.nodup_nil]
    have hsum : ∀ rs : List (Rectangle ℤ),
        ((rs.map (fun r =>
          r.get_vertices.countP (fun p => decide (p.1 = x)))).sum) % 2 = 0 := by
      intro rs
      induction rs with
      | nil => simp
      | cons r rs ih =>
        rw [List.map_cons, List.sum_cons]
        have := vertices_countP_col_even r x
        omega
    have := hsum rects
    simp only [List.countP_nil, Nat.zero_add]
    omega

/-- A key-sorted list in which every key class has even size is paired
completely by the 2i/2i+1 pairing, and every produced pair shares its
key.  Instantiated with the y coordinate on the y-sorted list and the
x coordinate on the x-sorted list. -/
theorem pairAdj_key (k : Pt → ℤ) :
    ∀ (l : List Pt), l.Pairwise (fun a b => k a = k b ∨ k a < k b) →
      (∀ y, (l.countP (fun p => decide (k p = y))) % 2 = 0) →
      ∃ prs, pairAdj l = .ok prs ∧ ∀ pr ∈ prs, k pr.1 = k pr.2
  | [], _, _ => ⟨[], rfl, by simp⟩
  | [a], _, he => by
    exfalso
    have h1 := he (k a)
    simp [List.countP_cons] at h1
  | a :: b :: rest, hp, he => by
    have hrel := List.pairwise_cons.mp hp
    have hrelb := List.pairwise_cons.mp hrel.2
    have hab : k a = k b := by
      by_contra hne
      have hlt : k a < k b := by
        rcases hrel.1 b (by simp) with h | h
        · exact absurd h hne
        · exact h
      have hzero : (List.countP (fun p => decide (k p = k a)) (b :: rest)) = 0 := by
        rw [List.countP_eq_zero]
        intro c hc
        simp only [decide_eq_true_eq]
        cases hc with
        | head => omega
        | tail _ hc2 =>
          intro hceq
          rcases hrelb.1 c hc2 with h | h <;> omega
      have h1 := he (k a)
      rw [List.countP_cons, hzero] at h1
      simp at h1
    have hrest : ∀ y, (rest.countP (fun p => decide (k p = y))) % 2 = 0 := by
      intro y
      have h1 := he y
      rw [List.countP_cons, List.countP_cons] at h1
      by_cases hy : k a = y
      · have hyb : k b = y := hab ▸ hy
        simp only [hy, hyb, decide_True, if_true] at h1
        omega
      · have hyb : ¬(k b = y) := fun hc => hy (hab.trans hc)
        simp only [hy, hyb, decide_False, if_false] at h1
        omega
    obtain ⟨prs, hpr, hkk⟩ := pairAdj_key k rest hrelb.2 hrest
    refine ⟨(a, b) :: (b, a) :: prs, ?_, ?_⟩
    · unfold pairAdj
      rw [hpr]
    · intro pr hm
      rcases hm with _ | ⟨_, hm⟩
      · exact hab
      · rcases hm with _ | ⟨_, hm⟩
        · exact hab.symm
        · exact hkk pr hm

/-- C7: the odd-parity vertex set of ortho_connect has an even number
of vertices in every row and in every column, and consequently the
2i/2i+1 pairing of the y-sorted list succeeds with every pair inside
one row, and the pairing of the x-sorted list succeeds with every pair
inside one column. -/
theorem ortho_connect_row_column_parity (rects : List (Rectangle ℤ))
    (y x : ℤ) :
    ((orthoPoints rects).countP (fun p => decide (p.2 = y))) % 2 = 0 ∧
      ((orthoPoints rects).countP (fun p => decide (p.1 = x))) % 2 = 0 ∧
      (∃ prs, pairAdj (List.insertionSort leYX (orthoPoints rects)) = .ok prs ∧
        ∀ pr ∈ prs, pr.1.2 = pr.2.2) ∧
      (∃ prs, pairAdj (List.insertionSort leXY (orthoPoints rects)) = .ok prs ∧
        ∀ pr ∈ prs, pr.1.1 = pr.2.1) := by
  refine ⟨(orthoPoints_parity rects y x).1, (orthoPoints_parity rects y x).2,
    ?_, ?_⟩
  · have hs : (List.insertionSort leYX (orthoPoints rects)).Pairwise
        (fun a b : Pt => a.2 = b.2 ∨ a.2 < b.2) := by
      have := List.sorted_insertionSort leYX (orthoPoints rects)
      exact this.imp (fun h => by unfold leYX at h; omega)
    have hperm := List.perm_insertionSort leYX (orthoPoints rects)
    refine pairAdj_key Prod.snd _ hs (fun y0 => ?_)
    rw [hperm.countP_eq]
    exact (orthoPoints_parity rects y0 x).1
  · have hs : (List.insertionSort leXY (orthoPoints rects)).Pairwise
        (fun a b : Pt => a.1 = b.1 ∨ a.1 < b.1) := by
      have := List.sorted_insertionSort leXY (orthoPoints rects)
      exact this.imp (fun h => by unfold leXY at h; omega)
    have hperm := List.perm_insertionSort leXY (orthoPoints rects)
    refine pairAdj_key Prod.fst _ hs (fun x0 => ?_)
    rw [hperm.countP_eq]
    exact (orthoPoints_parity rects y x0).2

set_option maxHeartbeats 1000000 in
/-- C4: on a single rectangle with positive width and height,
ortho_connect returns exactly one polygon, and its vertices are a
permutation of the four corner vertices of the rectangle. -/
theorem ortho_connect_single_rectangle (x y w h : ℤ) (hw : 0 < w)
    (hh : 0 < h) :
    ∃ poly, ortho_connect [⟨x, y, w, h⟩] = .ok [poly] ∧
      poly.Perm (Rectangle.get_vertices ⟨x, y, w, h⟩) := by
  have h12 : ¬(((x, y) : Pt) = (x + w, y)) := by simp [Prod.mk.injEq]; omega
  have h13 : ¬(((x, y) : Pt) = (x, y + h)) := by simp [Prod.mk.injEq]; omega
  have h14 : ¬(((x, y) : Pt) = (x + w, y + h)) := by simp [Prod.mk.injEq]; omega
  have h21 : ¬(((x + w, y) : Pt) = (x, y)) := by simp [Prod.mk.injEq]; omega
  have h23 : ¬(((x + w, y) : Pt) = (x, y + h)) := by simp [Prod.mk.injEq]; omega
  have h24 : ¬(((x + w, y) : Pt) = (x + w, y + h)) := by
    simp [Prod.mk.injEq]; omega
  have h31 : ¬(((x, y + h) : Pt) = (x, y)) := by simp [Prod.mk.injEq]; omega
  have h32 : ¬(((x, y + h) : Pt) = (x + w, y)) := by simp [Prod.mk.injEq]; omega
  have h34 : ¬(((x, y + h) : Pt) = (x + w, y + h)) := by
    simp [Prod.mk.injEq]; omega
  have h41 : ¬(((x + w, y + h) : Pt) = (x, y)) := by simp [Prod.mk.injEq]; omega
  have h42 : ¬(((x + w, y + h) : Pt) = (x + w, y)) := by
    simp [Prod.mk.injEq]; omega
  have h43 : ¬(((x + w, y + h) : Pt) = (x, y + h)) := by
    simp [Prod.mk.injEq]; omega
  have lx34 : leXY (x, y + h) (x + w, y + h) := by dsimp only [leXY]; omega
  have nlx23 : ¬leXY (x + w, y) (x, y + h) := by dsimp only [leXY]; omega
  have lx24 : leXY (x + w, y) (x + w, y + h) := by dsimp only [leXY]; omega
  have lx13 : leXY (x, y) (x, y + h) := by dsimp only [leXY]; omega
  have ly34 : leYX (x, y + h) (x + w, y + h) := by dsimp only [leYX]; omega
  have ly23 : leYX (x + w, y) (x, y + h) := by dsimp only [leYX]; omega
  have ly12 : leYX (x, y) (x + w, y) := by dsimp only [leYX]; omega
  have hmain : ortho_connect [⟨x, y, w, h⟩] =
      .ok [[(x + w, y + h), (x + w, y), (x, y), (x, y + h)]] := by
    simp [ortho_connect, orthoPoints, Rectangle.get_vertices, toggle,
      List.insertionSort, List.orderedInsert, pairAdj, dinsert, popLast,
      collectPolys, buildPoly, dpop, dremove, removeNested, pyRemove,
      h12, h13, h14, h21, h23, h24, h31, h32, h34, h41, h42, h43,
      lx34, nlx23, lx24, lx13, ly34, ly23, ly12]
  refine ⟨_, hmain, ?_⟩
  unfold Rectangle.get_vertices
  have s1 : ([(x + w, y + h), (x + w, y), (x, y), (x, y + h)] : List Pt).Perm
      ([(x + w, y), (x, y), (x, y + h)] ++ [(x + w, y + h)]) :=
    List.perm_cons_append_cons _ (List.Perm.refl _)
  refine s1.trans ?_
  show (((x + w, y) : Pt) :: [(x, y), (x, y + h), (x + w, y + h)]).Perm _
  exact List.Perm.swap _ _ _

/-- Reduction of bind on an ok value in the Except monad, for unfolding
monadic folds in evaluations. -/
theorem except_bind_ok {e a b : Type} (x : a) (f : a → Except e b) :
    (Except.ok x >>= f) = f x := rfl

/-- Reduction of bind on an error value in the Except monad. -/
theorem except_bind_err {e a b : Type} (er : e) (f : a → Except e b) :
    ((Except.error er : Except e a) >>= f) = Except.error er := rfl

set_option maxHeartbeats 4000000 in
/-- C5: on two rectangles, one strictly inside the other (in either
input order), ortho_connect reconstructs both boundaries and the
containment filter discards the inner one, so exactly one polygon is
returned: a permutation of the corner vertices of the outer
rectangle. -/
theorem ortho_connect_nested_rectangles (x1 y1 w1 h1 x2 y2 w2 h2 : ℤ)
    (hx1 : x1 < x2) (hx2 : x2 + w2 < x1 + w1) (hy1 : y1 < y2)
    (hy2 : y2 + h2 < y1 + h1) (hw2 : 0 < w2) (hh2 : 0 < h2) :
    ∃ poly,
      ortho_connect [⟨x1, y1, w1, h1⟩, ⟨x2, y2, w2, h2⟩] = .ok [poly] ∧
      ortho_connect [⟨x2, y2, w2, h2⟩, ⟨x1, y1, w1, h1⟩] = .ok [poly] ∧
      poly.Perm (Rectangle.get_vertices ⟨x1, y1, w1, h1⟩) := by
  have fx01lt : x1 < x2 := by omega
  have fx10nlt : ¬(x2 < x1) := by omega
  have fx01le : x1 ≤ x2 := by omega
  have fx10nle : ¬(x2 ≤ x1) := by omega
  have fx01ne : ¬(x1 = x2) := by omega
  have fx10ne2 : ¬(x2 = x1) := by omega
  have fx02lt : x1 < x2 + w2 := by omega
  have fx20nlt : ¬(x2 + w2 < x1) := by omega
  have fx02le : x1 ≤ x2 + w2 := by omega
  have fx20nle : ¬(x2 + w2 ≤ x1) := by omega
  have fx02ne : ¬(x1 = x2 + w2) := by omega
  have fx20ne2 : ¬(x2 + w2 = x1) := by omega
  have fx03lt : x1 < x1 + w1 := by omega
  have fx30nlt : ¬(x1 + w1 < x1) := by omega
  have fx03le : x1 ≤ x1 + w1 := by omega
  have fx30nle : ¬(x1 + w1 ≤ x1) := by omega
  have fx03ne : ¬(x1 = x1 + w1) := by omega
  have fx30ne2 : ¬(x1 + w1 = x1) := by omega
  have fx12lt : x2 < x2 + w2 := by omega
  have fx21nlt : ¬(x2 + w2 < x2) := by omega
  have fx12le : x2 ≤ x2 + w2 := by omega
  have fx21nle : ¬(x2 + w2 ≤ x2) := by omega
  have fx12ne : ¬(x2 = x2 + w2) := by omega
  have fx21ne2 : ¬(x2 + w2 = x2) := by omega
  have fx13lt : x2 < x1 + w1 := by omega
  have fx31nlt : ¬(x1 + w1 < x2) := by omega
  have fx13le : x2 ≤ x1 + w1 := by omega
  have fx31nle : ¬(x1 + w1 ≤ x2) := by omega
  have fx13ne : ¬(x2 = x1 + w1) := by omega
  have fx31ne2 : ¬(x1 + w1 = x2) := by omega
  have fx23lt : x2 + w2 < x1 + w1 := by omega
  have fx32nlt : ¬(x1 + w1 < x2 + w2) := by omega
  have fx23le : x2 + w2 ≤ x1 + w1 := by omega
  have fx32nle : ¬(x1 + w1 ≤ x2 + w2) := by omega
  have fx23ne : ¬(x2 + w2 = x1 + w1) := by omega
  have fx32ne2 : ¬(x1 + w1 = x2 + w2) := by omega
  have fy01lt : y1 < y2 := by omega
  have fy10nlt : ¬(y2 < y1) := by omega
  have fy01le : y1 ≤ y2 := by omega
  have fy10nle : ¬(y2 ≤ y1) := by omega
  have fy01ne : ¬(y1 = y2) := by omega
  have fy10ne2 : ¬(y2 = y1) := by omega
  have fy02lt : y1 < y2 + h2 := by omega
  have fy20nlt : ¬(y2 + h2 < y1) := by omega
  have fy02le : y1 ≤ y2 + h2 := by omega
  have fy20nle : ¬(y2 + h2 ≤ y1) := by omega
  have fy02ne : ¬(y1 = y2 + h2) := by omega
  have fy20ne2 : ¬(y2 + h2 = y1) := by omega
  have fy03lt : y1 < y1 + h1 := by omega
  have fy30nlt : ¬(y1 + h1 < y1) := by omega
  have fy03le : y1 ≤ y1 + h1 := by omega
  have fy30nle : ¬(y1 + h1 ≤ y1) := by omega
  have fy03ne : ¬(y1 = y1 + h1) := by omega
  have fy30ne2 : ¬(y1 + h1 = y1) := by omega
  have fy12lt : y2 < y2 + h2 := by omega
  have fy21nlt : ¬(y2 + h2 < y2) := by omega
  have fy12le : y2 ≤ y2 + h2 := by omega
  have fy21nle : ¬(y2 + h2 ≤ y2) := by omega
  have fy12ne : ¬(y2 = y2 + h2) := by omega
  have fy21ne2 : ¬(y2 + h2 = y2) := by omega
  have fy13lt : y2 < y1 + h1 := by omega
  have fy31nlt : ¬(y1 + h1 < y2) := by omega
  have fy13le : y2 ≤ y1 + h1 := by omega
  have fy31nle : ¬(y1 + h1 ≤ y2) := by omega
  have fy13ne : ¬(y2 = y1 + h1) := by omega
  have fy31ne2 : ¬(y1 + h1 = y2) := by omega
  have fy23lt : y2 + h2 < y1 + h1 := by omega
  have fy32nlt : ¬(y1 + h1 < y2 + h2) := by omega
  have fy23le : y2 + h2 ≤ y1 + h1 := by omega
  have fy32nle : ¬(y1 + h1 ≤ y2 + h2) := by omega
  have fy23ne : ¬(y2 + h2 = y1 + h1) := by omega
  have fy32ne2 : ¬(y1 + h1 = y2 + h2) := by omega
  have hmain1 : ortho_connect [⟨x1, y1, w1, h1⟩, ⟨x2, y2, w2, h2⟩] =
      .ok [[(x1 + w1, y1 + h1), (x1 + w1, y1), (x1, y1), (x1, y1 + h1)]] := by
    simp [ortho_connect, orthoPoints, Rectangle.get_vertices, toggle,
      List.insertionSort, List.orderedInsert, leXY, leYX, pairAdj, dinsert,
      popLast, collectPolys, buildPoly, dpop, dremove, removeNested,
      pyRemove, pyListRemove, point_in_polys, point_in_poly,
      List.foldlM_cons, List.foldlM_nil, except_bind_ok, except_bind_err,
      fx01lt, fx10nlt, fx01le, fx10nle, fx01ne, fx10ne2, fx02lt, fx20nlt, fx02le, fx20nle, fx02ne, fx20ne2, fx03lt, fx30nlt, fx03le, fx30nle, fx03ne, fx30ne2, fx12lt, fx21nlt, fx12le, fx21nle, fx12ne, fx21ne2, fx13lt, fx31nlt, fx13le, fx31nle, fx13ne, fx31ne2, fx23lt, fx32nlt, fx23le, fx32nle, fx23ne, fx32ne2, fy01lt, fy10nlt, fy01le, fy10nle, fy01ne, fy10ne2, fy02lt, fy20nlt, fy02le, fy20nle, fy02ne, fy20ne2, fy03lt, fy30nlt, fy03le, fy30nle, fy03ne, fy30ne2, fy12lt, fy21nlt, fy12le, fy21nle, fy12ne, fy21ne2, fy13lt, fy31nlt, fy13le, fy31nle, fy13ne, fy31ne2, fy23lt, fy32nlt, fy23le, fy32nle, fy23ne, fy32ne2]
    rw [if_neg (by exact_mod_cast fx20nlt)]
    exact_mod_cast fx23lt
  have hmain2 : ortho_connect [⟨x2, y2, w2, h2⟩, ⟨x1, y1, w1, h1⟩] =
      .ok [[(x1 + w1, y1 + h1), (x1 + w1, y1), (x1, y1), (x1, y1 + h1)]] := by
    simp [ortho_connect, orthoPoints, Rectangle.get_vertices, toggle,
      List.insertionSort, List.orderedInsert, leXY, leYX, pairAdj, dinsert,
      popLast, collectPolys, buildPoly, dpop, dremove, removeNested,
      pyRemove, pyListRemove, point_in_polys, point_in_poly,
      List.foldlM_cons, List.foldlM_nil, except_bind_ok, except_bind_err,
      fx01lt, fx10nlt, fx01le, fx10nle, fx01ne, fx10ne2, fx02lt, fx20nlt, fx02le, fx20nle, fx02ne, fx20ne2, fx03lt, fx30nlt, fx03le, fx30nle, fx03ne, fx30ne2, fx12lt, fx21nlt, fx12le, fx21nle, fx12ne, fx21ne2, fx13lt, fx31nlt, fx13le, fx31nle, fx13ne, fx31ne2, fx23lt, fx32nlt, fx23le, fx32nle, fx23ne, fx32ne2, fy01lt, fy10nlt, fy01le, fy10nle, fy01ne, fy10ne2, fy02lt, fy20nlt, fy02le, fy20nle, fy02ne, fy20ne2, fy03lt, fy30nlt, fy03le, fy30nle, fy03ne, fy30ne2, fy12lt, fy21nlt, fy12le, fy21nle, fy12ne, fy21ne2, fy13lt, fy31nlt, fy13le, fy31nle, fy13ne, fy31ne2, fy23lt, fy32nlt, fy23le, fy32nle, fy23ne, fy32ne2]
    rw [if_neg (by exact_mod_cast fx20nlt)]
    exact_mod_cast fx23lt
  refine ⟨_, hmain1, hmain2, ?_⟩
  unfold Rectangle.get_vertices
  have s1 : ([(x1 + w1, y1 + h1), (x1 + w1, y1), (x1, y1), (x1, y1 + h1)] :
      List Pt).Perm
      ([(x1 + w1, y1), (x1, y1), (x1, y1 + h1)] ++ [(x1 + w1, y1 + h1)]) :=
    List.perm_cons_append_cons _ (List.Perm.refl _)
  refine s1.trans ?_
  show (((x1 + w1, y1) : Pt) :: [(x1, y1), (x1, y1 + h1), (x1 + w1, y1 + h1)]).Perm _
  exact List.Perm.swap _ _ _

/-- C4 witness at the unit square. -/
theorem ortho_connect_single_rectangle_witness :
    ∃ poly, ortho_connect [⟨0, 0, 1, 1⟩] = .ok [poly] ∧
      poly.Perm (Rectangle.get_vertices ⟨0, 0, 1, 1⟩) :=
  ortho_connect_single_rectangle 0 0 1 1 (by omega) (by omega)

/-- C5 witness at a concrete strictly nested pair of rectangles. -/
theorem ortho_connect_nested_rectangles_witness :
    ∃ poly,
      ortho_connect [⟨0, 0, 10, 10⟩, ⟨2, 2, 3, 3⟩] = .ok [poly] ∧
      ortho_connect [⟨2, 2, 3, 3⟩, ⟨0, 0, 10, 10⟩] = .ok [poly] ∧
      poly.Perm (Rectangle.get_vertices ⟨0, 0, 10, 10⟩) :=
  ortho_connect_nested_rectangles 0 0 10 10 2 2 3 3 (by omega) (by omega)
    (by omega) (by omega) (by omega) (by omega)
